import Mathlib

/-!
Verification development for the HaHaWeather repository.

The derived-metrics engine (`src/js/weatherCalculations.js`) and the
temporal-alignment layer (the date-bucketing / alert-overlap logic of the
UI module) are shallowly embedded below.  JavaScript floating-point
numbers are modelled as real numbers; a JavaScript value that is absent,
`null`, or non-finite (`NaN`) is modelled as `Option.none` at the places
where the source tests `Number.isFinite` / `!= null`.  Timestamps that the
source parses with `new Date(...)` are modelled as structured local
date-times with an explicit UTC offset, converted to a linear epoch scale
(seconds); the environment's time zone (JavaScript's "local time") is an
explicit parameter `tz`, the offset east of UTC in minutes.
-/

/-! ### Derived-metrics engine: `src/js/weatherCalculations.js` -/

/-- `clamp(n, min, max) = Math.min(max, Math.max(min, n))`. -/
noncomputable def clamp (n lo hi : ℝ) : ℝ := min hi (max lo n)

/-- The wind-chill regression of `calculateWindChill` (the non-guard branch):
`35.74 + 0.6215*T - 35.75*W^0.16 + 0.4275*T*W^0.16` with `Math.pow`
modelled by the real power `Real.rpow`. -/
noncomputable def windChillFormula (tempF windMph : ℝ) : ℝ :=
  35.74 + 0.6215 * tempF - 35.75 * windMph ^ (0.16 : ℝ)
    + 0.4275 * tempF * windMph ^ (0.16 : ℝ)

/-- `calculateWindChill(tempF, windMph)`. -/
noncomputable def calculateWindChill (tempF windMph : ℝ) : ℝ :=
  if tempF > 50 ∨ windMph < 3 then tempF else windChillFormula tempF windMph

/-- The Rothfusz regression polynomial from `calculateHeatIndex`. -/
noncomputable def rothfuszHI (T RH : ℝ) : ℝ :=
  -42.379 + 2.04901523 * T + 10.14333127 * RH - 0.22475541 * T * RH
    - 0.00683783 * T * T - 0.05481717 * RH * RH + 0.00122874 * T * T * RH
    + 0.00085282 * T * RH * RH - 0.00000199 * T * T * RH * RH

/-- The very-low-humidity adjustment `((13 - RH) / 4) * sqrt((17 - |T - 95|) / 17)`. -/
noncomputable def lowHumidityAdj (T RH : ℝ) : ℝ :=
  ((13 - RH) / 4) * Real.sqrt ((17 - |T - 95|) / 17)

/-- The very-high-humidity adjustment `((RH - 85) / 10) * ((87 - T) / 5)`. -/
noncomputable def highHumidityAdj (T RH : ℝ) : ℝ :=
  ((RH - 85) / 10) * ((87 - T) / 5)

/-- `calculateHeatIndex(tempF, humidityPct)`.  The source's locals
`T = tempF` and `RH = clamp(humidityPct ?? 50, 0, 100)` are inlined; the
`?? 50` default for an absent argument is collapsed because every call
site of this embedding passes a present (finite) humidity. -/
noncomputable def calculateHeatIndex (tempF humidityPct : ℝ) : ℝ :=
  if tempF < 80 ∨ clamp humidityPct 0 100 < 40 then tempF
  else
    rothfuszHI tempF (clamp humidityPct 0 100)
      - (if clamp humidityPct 0 100 < 13 ∧ 80 ≤ tempF ∧ tempF ≤ 112 then
          lowHumidityAdj tempF (clamp humidityPct 0 100) else 0)
      + (if 85 < clamp humidityPct 0 100 ∧ 80 ≤ tempF ∧ tempF ≤ 87 then
          highHumidityAdj tempF (clamp humidityPct 0 100) else 0)

/-- `calculateRealFeel(tempF, windSpeedMph, humidityPct)` on finite inputs
(the `!Number.isFinite(T)` NaN guard is modelled by callers passing
`Option ℝ` temperatures, and `RH` is finite by construction). -/
noncomputable def calculateRealFeel (tempF windMph humidityPct : ℝ) : ℝ :=
  if tempF ≤ 50 ∧ 3 ≤ windMph then calculateWindChill tempF windMph
  else if 80 ≤ tempF ∧ 40 ≤ humidityPct then calculateHeatIndex tempF humidityPct
  else tempF

/-- `toFahrenheit(value, unitCode)`; `none` models `null` / a non-finite value. -/
noncomputable def toFahrenheit (value : Option ℝ) (unitCode : Option String) : Option ℝ :=
  match value with
  | none => none
  | some v =>
    if ((unitCode.getD ("")).toLower.splitOn ("degc")).length ≥ 2 then
      some (v * 9 / 5 + 32)
    else some v

/-! Wind-speed parsing: `parseWindSpeedMph`.  The regex
`/(\d+(\.\d+)?)/g` scan is modelled by an explicit left-to-right scan over
the character list: each maximal digit run, optionally followed by a dot
and a further digit run, yields one number. -/

/-- Numeric value of a digit run (the chars are digits at every use). -/
def digitsVal (ds : List Char) : ℚ :=
  ((ds.foldl (fun n c => 10 * n + (c.toNat - 48)) 0 : ℕ) : ℚ)

/-- Fuel-indexed scan extracting every `\d+(\.\d+)?` match in order. -/
def scanNums : ℕ → List Char → List ℚ
  | 0, _ => []
  | _ + 1, [] => []
  | fuel + 1, c :: cs =>
    if c.isDigit then
      let ds := (c :: cs).takeWhile Char.isDigit
      let rest := (c :: cs).dropWhile Char.isDigit
      match rest with
      | '.' :: r =>
        if (r.takeWhile Char.isDigit) = [] then digitsVal ds :: scanNums fuel rest
        else
          (digitsVal ds + digitsVal (r.takeWhile Char.isDigit)
              / (10 : ℚ) ^ (r.takeWhile Char.isDigit).length)
            :: scanNums fuel (r.dropWhile Char.isDigit)
      | _ => digitsVal ds :: scanNums fuel rest
    else scanNums fuel cs

/-- All numbers found in a wind-speed string, as by
`windSpeedStr.match(/(\d+(\.\d+)?)/g).map(Number)`. -/
def windNums (s : String) : List ℚ := scanNums s.data.length s.data

/-- `parseWindSpeedMph(windSpeedStr)`; `none` models an absent field and
the `!windSpeedStr` guard also catches the empty string. -/
noncomputable def parseWindSpeedMph (windSpeedStr : Option String) : ℝ :=
  match windSpeedStr with
  | none => 0
  | some s =>
    if s = ("") then 0
    else
      let nums := windNums s
      if nums = [] then 0
      else ((max 0 (nums.sum / (nums.length : ℚ)) : ℚ) : ℝ)

/-- `p.apparentTemperature`: either `{ value, unitCode }` or a plain number. -/
inductive ApparentTempVal where
  | obj (value : Option ℝ) (unitCode : Option String)
  | num (v : ℝ)

/-- One NWS forecast period as consumed by `getDailyRealFeelRange`.
`temperature = none` models a value for which `Number(p.temperature)` is
non-finite; `relativeHumidity` collapses the `p?.relativeHumidity?.value`
access (`none` when either level is absent). -/
structure Period where
  startTime : Option String
  temperature : Option ℝ
  windSpeed : Option String
  relativeHumidity : Option ℝ
  apparentTemperature : Option ApparentTempVal

/-- The apparent-temperature extraction of `getDailyRealFeelRange`
(`apparentF`): unit-normalized when an object, taken as °F when a number. -/
noncomputable def periodApparentF (p : Period) : Option ℝ :=
  match p.apparentTemperature with
  | none => none
  | some (ApparentTempVal.obj v u) => toFahrenheit v u
  | some (ApparentTempVal.num v) => some v

/-- The resolved RealFeel of one period:
`Number.isFinite(apparentF) ? apparentF : calculateRealFeel(tempF, windMph, rh)`,
pushed only when finite, i.e. `some`. -/
noncomputable def periodRealFeel (p : Period) : Option ℝ :=
  match periodApparentF p with
  | some a => some a
  | none =>
    p.temperature.map (fun t =>
      calculateRealFeel t (parseWindSpeedMph p.windSpeed)
        (clamp ((p.relativeHumidity).getD 50) 0 100))

/-- `String(p.startTime || '').split('T')[0]`: the characters of the
timestamp before the first `'T'`. -/
def beforeT (s : String) : String :=
  String.mk (s.data.takeWhile (fun c => c != 'T'))

/-- The bucket key of `getDailyRealFeelRange`:
`String(p.startTime || '').split('T')[0] || 'unknown'`. -/
def dateKeyOfStartTime (s : String) : String :=
  let d := beforeT s
  if d = ("") then ("unknown") else d

/-- The calendar-day key a period is bucketed under. -/
def periodKey (p : Period) : String := dateKeyOfStartTime ((p.startTime).getD (""))

/-- One day's accumulator `{ realFeels: [], highs: [], lows: [] }`. -/
structure Buckets where
  realFeels : List ℝ
  highs : List ℝ
  lows : List ℝ

/-- The freshly initialized accumulator. -/
def emptyB : Buckets := ⟨[], [], []⟩

/-- The pushes performed for one period:
`realFeels.push(realFeel)` when finite, and `highs.push(tempF)`,
`lows.push(tempF)` when the temperature is finite. -/
noncomputable def stepPush (b : Buckets) (p : Period) : Buckets :=
  { realFeels := b.realFeels ++ (periodRealFeel p).toList
    highs := b.highs ++ (p.temperature).toList
    lows := b.lows ++ (p.temperature).toList }

/-- JavaScript object property lookup (`daily[date]`) on the association
list that models the `daily` object. -/
def lookupB : List (String × Buckets) → String → Option Buckets
  | [], _ => none
  | e :: es, k => if e.1 = k then some e.2 else lookupB es k

/-- The body of `periods.forEach(...)`: create the day's accumulator on
first encounter (JavaScript object insertion order: appended at the end),
then push.  The association list plays the role of the `daily` object. -/
noncomputable def step (bs : List (String × Buckets)) (p : Period) : List (String × Buckets) :=
  match lookupB bs (periodKey p) with
  | some _ => bs.map (fun e => if e.1 = periodKey p then (e.1, stepPush e.2 p) else e)
  | none => bs ++ [(periodKey p, stepPush emptyB p)]

/-- All pushes of a period list into one day's accumulator. -/
noncomputable def pushAll (b : Buckets) (ps : List Period) : Buckets :=
  ps.foldl stepPush b

/-- `Math.max(...arr)` over a possibly-empty list (`none` for `length == 0`). -/
noncomputable def realsMax : List ℝ → Option ℝ
  | [] => none
  | x :: xs => some (xs.foldl max x)

/-- `Math.min(...arr)` over a possibly-empty list. -/
noncomputable def realsMin : List ℝ → Option ℝ
  | [] => none
  | x :: xs => some (xs.foldl min x)

/-- One output record of `getDailyRealFeelRange`; `none` models `null`. -/
structure DailyRange where
  realFeelHigh : Option ℤ
  realFeelLow : Option ℤ
  high : Option ℤ
  low : Option ℤ
deriving DecidableEq

/-- The final per-day record: `rf.length ? Math.round(Math.max(...rf)) : null`
etc.; `Math.round` is `fun x => ⌊x + 1/2⌋`, Mathlib's `round`. -/
noncomputable def summarize (b : Buckets) : DailyRange :=
  { realFeelHigh := (realsMax b.realFeels).map round
    realFeelLow := (realsMin b.realFeels).map round
    high := (realsMax b.highs).map round
    low := (realsMin b.lows).map round }

/-- `getDailyRealFeelRange(periods)`: the per-day map as an association
list in JavaScript object insertion order (first-seen date order). -/
noncomputable def getDailyRealFeelRange (periods : List Period) : List (String × DailyRange) :=
  (periods.foldl step []).map (fun e => (e.1, summarize e.2))

/-- Lookup in the produced map (`result[date]`). -/
def resultFind : List (String × DailyRange) → String → Option DailyRange
  | [], _ => none
  | e :: es, k => if e.1 = k then some e.2 else resultFind es k

/-! ### Temporal alignment layer: calendar arithmetic

`new Date(...)` values are instants; comparisons in the source compare
instants.  `daysFromCivil` / `civilFromDays` are the standard proleptic
Gregorian conversions (days relative to 1970-01-01). -/

/-- Days since 1970-01-01 of a civil date. -/
def daysFromCivil (y m d : ℤ) : ℤ :=
  let y2 := if m ≤ 2 then y - 1 else y
  let era := y2 / 400
  let yoe := y2 - era * 400
  let mp := (m + 9) % 12
  let doy := (153 * mp + 2) / 5 + d - 1
  let doe := yoe * 365 + yoe / 4 - yoe / 100 + doy
  era * 146097 + doe - 719468

/-- Civil date of a day count since 1970-01-01. -/
def civilFromDays (z0 : ℤ) : ℤ × ℤ × ℤ :=
  let z := z0 + 719468
  let era := z / 146097
  let doe := z - era * 146097
  let yoe := (doe - doe / 1460 + doe / 36524 - doe / 146096) / 365
  let y := yoe + era * 400
  let doy := doe - (365 * yoe + yoe / 4 - yoe / 100)
  let mp := (5 * doy + 2) / 153
  let d := doy - (153 * mp + 2) / 5 + 1
  let m := mp + (if mp < 10 then 3 else -9)
  (y + (if m ≤ 2 then 1 else 0), m, d)

/-- Epoch seconds of a wall-clock date-time read at UTC offset `offMin`
minutes (east positive). -/
def epochOfLocal (offMin y m d h mi s : ℤ) : ℤ :=
  daysFromCivil y m d * 86400 + h * 3600 + mi * 60 + s - offMin * 60

/-- A parsed ISO timestamp carrying its own UTC offset, as produced by
`new Date(isoString)` for the NWS timestamps. -/
structure Timestamp where
  year : ℤ
  month : ℤ
  day : ℤ
  hour : ℤ
  minute : ℤ
  second : ℤ
  offsetMinutes : ℤ
deriving DecidableEq

/-- The instant (epoch seconds) a timestamp denotes. -/
def Timestamp.toEpoch (t : Timestamp) : ℤ :=
  epochOfLocal t.offsetMinutes t.year t.month t.day t.hour t.minute t.second

/-- `String(n).padStart(2, "0")`. -/
def pad2 (n : ℤ) : String :=
  let s := toString n
  if s.length < 2 then ("0") ++ s else s

/-- `formatDateKey(dateLike)` of the UI module: the year-month-day of an
instant rendered in the environment's time zone `tz` (offset east of UTC
in minutes) as `YYYY-MM-DD`, via `getFullYear`/`getMonth`/`getDate`. -/
def formatDateKey (tz epoch : ℤ) : String :=
  let wall := epoch + tz * 60
  let c := civilFromDays (wall / 86400)
  toString c.1 ++ ("-") ++ pad2 c.2.1 ++ ("-") ++ pad2 c.2.2

/-- `Number` applied to a slice of digits; `none` models a slice whose
`Number(...)` is not a (nonnegative integer) numeral, which makes the
subsequently constructed `Date` invalid so every comparison on it is
false. -/
def digitsToNat? (cs : List Char) : Option ℕ :=
  if cs = [] ∨ ¬ cs.all Char.isDigit then none
  else some (cs.foldl (fun n c => 10 * n + (c.toNat - 48)) 0)

/-- `Number(dateKey.slice(0,4))`, `Number(dateKey.slice(5,7))`,
`Number(dateKey.slice(8,10))` of `alertAppliesOnDate` (the month is
re-offset to one-indexed form here; the source subtracts 1 only to feed
the zero-indexed `Date` constructor). -/
def parseDateKey (k : String) : Option (ℤ × ℤ × ℤ) :=
  match digitsToNat? (k.data.take 4), digitsToNat? ((k.data.drop 5).take 2),
      digitsToNat? ((k.data.drop 8).take 2) with
  | some y, some m, some d => some ((y : ℤ), (m : ℤ), (d : ℤ))
  | _, _, _ => none

/-- The timestamp fields of `alert.properties` used by `alertAppliesOnDate`;
`none` models an absent (or falsy) field. -/
structure AlertProps where
  effective : Option Timestamp
  onset : Option Timestamp
  sent : Option Timestamp
  expires : Option Timestamp
  ends : Option Timestamp
deriving DecidableEq

/-- An NWS alert as consumed by the UI layer. -/
structure Alert where
  properties : Option AlertProps
deriving DecidableEq

/-- `alertAppliesOnDate(alert, dateKey)` (`ui.js` drop-in revision):
day window `[local midnight, local 23:59:59]` in the environment zone
`tz`; start `effective || onset || sent` defaulting to the day's start,
end `expires || ends` defaulting to the day's end; closed-interval
overlap `dayStart <= end && dayEnd >= start`. -/
def alertAppliesOnDate (tz : ℤ) (alert : Alert) (dateKey : String) : Bool :=
  match alert.properties with
  | none => false
  | some p =>
    match parseDateKey dateKey with
    | none => false
    | some c =>
      decide (epochOfLocal tz c.1 c.2.1 c.2.2 0 0 0 ≤
          (match p.expires <|> p.ends with
           | some t => t.toEpoch
           | none => epochOfLocal tz c.1 c.2.1 c.2.2 23 59 59) ∧
        (match p.effective <|> p.onset <|> p.sent with
         | some t => t.toEpoch
         | none => epochOfLocal tz c.1 c.2.1 c.2.2 0 0 0) ≤
          epochOfLocal tz c.1 c.2.1 c.2.2 23 59 59)

/-- The per-cell alert choice of `renderWeatherTable`:
`alertsForLoc.find(a => alertAppliesOnDate(a, dateKey))`. -/
def selectAlertForCell (tz : ℤ) (alerts : List Alert) (dateKey : String) : Option Alert :=
  alerts.find? (fun a => alertAppliesOnDate tz a dateKey)

/-! ### Temporal alignment layer: `deriveDateKeys` -/

/-- Code-unit lexicographic string order: JavaScript's `<=` on strings,
and the effect of `localeCompare`-based ascending sort on these
ASCII day keys. -/
def charListLe : List Char → List Char → Bool
  | [], _ => true
  | _ :: _, [] => false
  | a :: as, b :: bs => if a < b then true else if a = b then charListLe as bs else false

/-- Insert into a sorted list, keeping it sorted. -/
def insertSorted (x : String) : List String → List String
  | [] => [x]
  | y :: ys => if charListLe x.data y.data then x :: y :: ys else y :: insertSorted x ys

/-- `Array.prototype.sort((a, b) => a.localeCompare(b))` on the (distinct)
day keys: the ascending reordering. -/
def sortKeys (l : List String) : List String := l.foldr insertSorted []

/-- `Set.prototype.add`: appended at the end when not yet present
(JavaScript `Set` iteration order is insertion order). -/
def addKey (acc : List String) (k : String) : List String :=
  if k ∈ acc then acc else acc ++ [k]

/-- A UI-layer forecast period as read by `deriveDateKeys`
(`p.startTime || p.start || p.date || new Date()`). -/
structure UIPeriod where
  startTime : Option Timestamp
  start : Option Timestamp
  date : Option Timestamp
deriving DecidableEq

/-- The instant whose local date names a period's row (falling back to
the current time `nowEpoch` for a period with no usable timestamp). -/
def periodStartEpoch (nowEpoch : ℤ) (p : UIPeriod) : ℤ :=
  match p.startTime <|> p.start <|> p.date with
  | some t => t.toEpoch
  | none => nowEpoch

/-- One location slot as read by `deriveDateKeys`: its daily-summary map
(`dailyData`, already keyed `YYYY-MM-DD`) and its raw period list.
The array form accepted by `normalizeDailyMap` is a different upstream
shape never produced by this pipeline and is not modelled. -/
structure UISlot where
  dailyData : Option (List (String × DailyRange))
  periods : Option (List UIPeriod)

/-- `normalizeDailyMap(dailyData)` on the map form: `{}` for a missing
value, the map itself otherwise. -/
def normalizeDailyMap (dailyData : Option (List (String × DailyRange))) :
    List (String × DailyRange) :=
  dailyData.getD []

/-- `deriveDateKeys(locations)`: keys of every slot's `dailyData` map,
then keys derived from every slot's raw periods, filtered to
`k >= todayKey` and sorted ascending.  `tz` is the environment zone,
`nowEpoch` the current instant (`new Date()`). -/
def deriveDateKeys (tz nowEpoch : ℤ) (locations : List (Option UISlot)) : List String :=
  let keys1 := locations.foldl (fun acc oloc =>
    (normalizeDailyMap (oloc.bind UISlot.dailyData)).foldl
      (fun a e => addKey a e.1) acc) []
  let keys2 := locations.foldl (fun acc oloc =>
    match oloc with
    | none => acc
    | some loc =>
      match loc.periods with
      | none => acc
      | some ps =>
        ps.foldl (fun a p => addKey a (formatDateKey tz (periodStartEpoch nowEpoch p))) acc)
    keys1
  let todayKey := formatDateKey tz nowEpoch
  sortKeys (keys2.filter (fun k => charListLe todayKey.data k.data))

/-! ### Concrete inputs used by the claims -/

/-- The single period of the §8 example: `temperature=72`,
`windSpeed="5 mph"`, `relativeHumidity=50`, start `2024-06-01T08:00:00-04:00`. -/
noncomputable def examplePeriod72 : Period :=
  { startTime := some ("2024-06-01T08:00:00-04:00")
    temperature := some 72
    windSpeed := some ("5 mph")
    relativeHumidity := some 50
    apparentTemperature := none }

/-- Two same-day periods with temperatures 70 and 75 (aggregation witness). -/
noncomputable def periodA70 : Period :=
  { startTime := some ("2024-06-01T06:00:00-04:00")
    temperature := some 70
    windSpeed := none
    relativeHumidity := some 50
    apparentTemperature := none }

/-- Second period of the aggregation witness. -/
noncomputable def periodB75 : Period :=
  { startTime := some ("2024-06-01T14:00:00-04:00")
    temperature := some 75
    windSpeed := none
    relativeHumidity := some 50
    apparentTemperature := none }

/-- A period with a non-finite temperature and no apparent temperature:
its day gets an accumulator but no candidates. -/
noncomputable def badPeriod : Period :=
  { startTime := some ("2024-06-02T00:00:00-04:00")
    temperature := none
    windSpeed := none
    relativeHumidity := none
    apparentTemperature := none }

/-- A period with a provided finite apparent temperature (75) but a
non-finite raw temperature. -/
noncomputable def apparentOnlyPeriod : Period :=
  { startTime := some ("2024-06-03T10:00:00-04:00")
    temperature := none
    windSpeed := none
    relativeHumidity := none
    apparentTemperature := some (ApparentTempVal.num 75) }

/-- Properties of the §8 alert: effective `2024-06-01T23:00:00-04:00`,
expires `2024-06-02T02:00:00-04:00`. -/
def exampleAlertProps : AlertProps :=
  { effective := some ⟨2024, 6, 1, 23, 0, 0, -240⟩
    onset := none
    sent := none
    expires := some ⟨2024, 6, 2, 2, 0, 0, -240⟩
    ends := none }

/-- The §8 alert. -/
def exampleAlert : Alert := { properties := some exampleAlertProps }

/-- A distinct alert used to witness the cell-selection policy. -/
def cellAlert : Alert :=
  { properties := some
      { effective := some ⟨2024, 6, 5, 8, 0, 0, -240⟩
        onset := none
        sent := none
        expires := some ⟨2024, 6, 5, 20, 0, 0, -240⟩
        ends := none } }

/-- An empty daily record (the record values are irrelevant to key sets). -/
def emptyDR : DailyRange := ⟨none, none, none, none⟩

/-- Slot with summary keys 2024-05-30 and 2024-06-01, no period list. -/
def slotA : UISlot :=
  { dailyData := some [(("2024-05-30"), emptyDR), (("2024-06-01"), emptyDR)]
    periods := none }

/-- Slot with summary keys 2024-06-01 and 2024-06-02, no period list. -/
def slotB : UISlot :=
  { dailyData := some [(("2024-06-01"), emptyDR), (("2024-06-02"), emptyDR)]
    periods := none }

/-- Slot with an empty summary map. -/
def slotC : UISlot :=
  { dailyData := some []
    periods := none }

/-- Noon UTC on 2024-06-01 (19875 days past the epoch): "today" for the
`deriveDateKeys` example, taken in zone `tz = 0`. -/
def nowJune1 : ℤ := 19875 * 86400 + 43200

/-- A slot that HAS a summary map (key 2024-06-05) and also a period list
whose period starts 2024-06-07T12:00:00+00:00. -/
def slotBoth : UISlot :=
  { dailyData := some [(("2024-06-05"), emptyDR)]
    periods := some [{ startTime := some ⟨2024, 6, 7, 12, 0, 0, 0⟩, start := none, date := none }] }

/-! ### Claims about the apparent-temperature dispatcher -/

/-- C1: for every temperature `T ≤ 50` and wind `W ≥ 3` (any humidity),
`calculateRealFeel` returns exactly the wind-chill formula
`35.74 + 0.6215*T - 35.75*W^0.16 + 0.4275*T*W^0.16`, and for fixed `T`
the result is monotonically non-increasing as the wind grows. -/
theorem calculateRealFeel_windChill (T W1 W2 RH : ℝ)
    (hT : T ≤ 50) (hW1 : 3 ≤ W1) (h12 : W1 ≤ W2) :
    calculateRealFeel T W1 RH = windChillFormula T W1 ∧
    calculateRealFeel T W2 RH ≤ calculateRealFeel T W1 RH := by
  have hW2 : 3 ≤ W2 := le_trans hW1 h12
  have hwc : ∀ W : ℝ, 3 ≤ W → calculateRealFeel T W RH = windChillFormula T W := by
    intro W hW
    unfold calculateRealFeel
    rw [if_pos ⟨hT, hW⟩]
    unfold calculateWindChill
    rw [if_neg (by push_neg; exact ⟨hT, hW⟩)]
  refine ⟨hwc W1 hW1, ?_⟩
  rw [hwc W1 hW1, hwc W2 hW2]
  have hx : W1 ^ (0.16 : ℝ) ≤ W2 ^ (0.16 : ℝ) :=
    Real.rpow_le_rpow (by linarith) h12 (by norm_num)
  have key : (0.4275 * T - 35.75) * (W2 ^ (0.16 : ℝ) - W1 ^ (0.16 : ℝ)) ≤ 0 :=
    mul_nonpos_of_nonpos_of_nonneg (by linarith) (by linarith)
  unfold windChillFormula
  nlinarith [key]

/-- C1 witness at `T = 30`, `W = 5` against `W = 10`. -/
theorem calculateRealFeel_windChill_witness :
    calculateRealFeel 30 5 50 = windChillFormula 30 5 ∧
    calculateRealFeel 30 10 50 ≤ calculateRealFeel 30 5 50 :=
  calculateRealFeel_windChill 30 5 10 50 (by norm_num) (by norm_num) (by norm_num)

/-- C2: for every `T ≥ 80` and `RH ≥ 40` (any wind), `calculateRealFeel`
returns the Rothfusz regression on `T` and the clamped humidity, with the
low-humidity correction subtracted exactly when the clamped `RH < 13`
(vacuous here) and `80 ≤ T ≤ 112`, and the high-humidity correction added
exactly when the clamped `RH > 85` and `80 ≤ T ≤ 87`. -/
theorem calculateRealFeel_heatIndex (T W RH : ℝ) (hT : 80 ≤ T) (hRH : 40 ≤ RH) :
    calculateRealFeel T W RH =
      rothfuszHI T (clamp RH 0 100)
        - (if clamp RH 0 100 < 13 ∧ 80 ≤ T ∧ T ≤ 112 then
            lowHumidityAdj T (clamp RH 0 100) else 0)
        + (if 85 < clamp RH 0 100 ∧ 80 ≤ T ∧ T ≤ 87 then
            highHumidityAdj T (clamp RH 0 100) else 0) := by
  have hcl : 40 ≤ clamp RH 0 100 := by
    unfold clamp
    exact le_min (by norm_num) (le_trans hRH (le_max_right 0 RH))
  unfold calculateRealFeel
  rw [if_neg (by intro h; linarith [h.1]), if_pos ⟨hT, hRH⟩]
  unfold calculateHeatIndex
  rw [if_neg (by push_neg; exact ⟨by linarith, by linarith⟩)]

/-- C2 witness at `T = 85`, `RH = 90`: the gates pass and the
high-humidity correction is active (`RH > 85`, `80 ≤ T ≤ 87`). -/
theorem calculateRealFeel_heatIndex_witness :
    calculateRealFeel 85 0 90 =
      rothfuszHI 85 (clamp 90 0 100)
        - (if clamp 90 0 100 < 13 ∧ 80 ≤ (85 : ℝ) ∧ (85 : ℝ) ≤ 112 then
            lowHumidityAdj 85 (clamp 90 0 100) else 0)
        + (if 85 < clamp 90 0 100 ∧ 80 ≤ (85 : ℝ) ∧ (85 : ℝ) ≤ 87 then
            highHumidityAdj 85 (clamp 90 0 100) else 0) :=
  calculateRealFeel_heatIndex 85 0 90 (by norm_num) (by norm_num)

/-- C3: in the comfortable band `50 < T < 80` (any wind and humidity),
as well as for `T ≤ 50` with `W < 3` and for `T ≥ 80` with `RH < 40`,
`calculateRealFeel` returns the raw temperature unchanged. -/
theorem calculateRealFeel_identity (T W RH : ℝ) :
    (50 < T → T < 80 → calculateRealFeel T W RH = T) ∧
    (T ≤ 50 → W < 3 → calculateRealFeel T W RH = T) ∧
    (80 ≤ T → RH < 40 → calculateRealFeel T W RH = T) := by
  unfold calculateRealFeel
  refine ⟨?_, ?_, ?_⟩ <;> intro h1 h2
  · rw [if_neg (by intro h; linarith [h.1]), if_neg (by intro h; linarith [h.1])]
  · rw [if_neg (by intro h; linarith [h.2]), if_neg (by intro h; linarith [h.1])]
  · rw [if_neg (by intro h; linarith [h.1]), if_neg (by intro h; linarith [h.2])]

/-- C3 witness at `(60, 10, 50)`, `(40, 2, 50)` and `(90, 5, 20)`. -/
theorem calculateRealFeel_identity_witness :
    calculateRealFeel 60 10 50 = 60 ∧ calculateRealFeel 40 2 50 = 40 ∧
    calculateRealFeel 90 5 20 = 90 :=
  ⟨(calculateRealFeel_identity 60 10 50).1 (by norm_num) (by norm_num),
   (calculateRealFeel_identity 40 2 50).2.1 (by norm_num) (by norm_num),
   (calculateRealFeel_identity 90 5 20).2.2 (by norm_num) (by norm_num)⟩

/-! ### Structural lemmas about the daily bucketing -/

/-- One push appends the resolved values to the accumulator fields. -/
theorem pushAll_cons (b : Buckets) (p : Period) (ps : List Period) :
    pushAll b (p :: ps) = pushAll (stepPush b p) ps := rfl

/-- `pushAll` in closed form: the fields collect the present values. -/
theorem pushAll_fields (ps : List Period) : ∀ b : Buckets,
    pushAll b ps =
      { realFeels := b.realFeels ++ ps.filterMap periodRealFeel
        highs := b.highs ++ ps.filterMap Period.temperature
        lows := b.lows ++ ps.filterMap Period.temperature } := by
  induction ps with
  | nil => intro b; cases b; simp [pushAll]
  | cons p ps ih =>
    intro b
    rw [pushAll_cons, ih]
    simp only [stepPush, List.filterMap_cons]
    cases hrf : periodRealFeel p <;> cases ht : p.temperature <;>
      simp [Option.toList]

/-- Updating the entry of key `periodKey p` commutes with lookup. -/
theorem lookupB_map_update (p : Period) (q : String) :
    ∀ bs : List (String × Buckets),
    lookupB (bs.map (fun e => if e.1 = periodKey p then (e.1, stepPush e.2 p) else e)) q =
      if periodKey p = q then (lookupB bs q).map (fun b => stepPush b p)
      else lookupB bs q := by
  intro bs
  induction bs with
  | nil => simp [lookupB]
  | cons e es ih =>
    have hfst : (if e.1 = periodKey p then (e.1, stepPush e.2 p) else e).1 = e.1 := by
      split <;> rfl
    have hsnd : (if e.1 = periodKey p then (e.1, stepPush e.2 p) else e).2 =
        if e.1 = periodKey p then stepPush e.2 p else e.2 := by
      split <;> rfl
    simp only [List.map_cons, lookupB, hfst, hsnd]
    by_cases he : e.1 = q
    · by_cases hpq : periodKey p = q
      · have hek : e.1 = periodKey p := by rw [he, hpq]
        simp [he, hpq, hek]
      · have hek : ¬ e.1 = periodKey p := fun h => hpq (by rw [← h, he])
        simp only [he, hek, hpq]
        simp [if_neg hek]
        exact fun h => absurd h.symm hpq
    · simp only [if_neg he, ih]

/-- Lookup after appending a fresh single entry. -/
theorem lookupB_append_single (k : String) (b : Buckets) (q : String) :
    ∀ bs : List (String × Buckets),
    lookupB (bs ++ [(k, b)]) q =
      match lookupB bs q with
      | some x => some x
      | none => if k = q then some b else none := by
  intro bs
  induction bs with
  | nil => simp [lookupB]
  | cons e es ih =>
    by_cases he : e.1 = q <;> simp [lookupB, he, ih]

/-- A successful lookup means the key occurs in the list. -/
theorem lookupB_mem_keys {bs : List (String × Buckets)} {k : String} {b : Buckets}
    (h : lookupB bs k = some b) : k ∈ bs.map Prod.fst := by
  induction bs with
  | nil => simp [lookupB] at h
  | cons e es ih =>
    by_cases he : e.1 = k
    · simp [he]
    · simp only [lookupB, if_neg he] at h
      simp [ih h]

/-- Effect of one `forEach` iteration on the lookup of any key. -/
theorem lookupB_step (bs : List (String × Buckets)) (p : Period) (q : String) :
    lookupB (step bs p) q =
      if periodKey p = q then some (stepPush ((lookupB bs q).getD emptyB) p)
      else lookupB bs q := by
  unfold step
  cases hf : lookupB bs (periodKey p) with
  | some b0 =>
    rw [lookupB_map_update]
    by_cases hpq : periodKey p = q
    · subst hpq
      rw [hf]
      simp
    · simp [hpq]
  | none =>
    rw [lookupB_append_single]
    by_cases hpq : periodKey p = q
    · subst hpq
      rw [hf]
      simp
    · simp only [if_neg hpq]
      cases hq : lookupB bs q <;> simp

/-- Lookup after the whole fold, in terms of the same-key periods. -/
theorem lookupB_foldl (q : String) : ∀ (ps : List Period) (bs : List (String × Buckets)),
    lookupB (ps.foldl step bs) q =
      match lookupB bs q with
      | some b => some (pushAll b (ps.filter (fun p => periodKey p = q)))
      | none =>
        match ps.filter (fun p => periodKey p = q) with
        | [] => none
        | qs => some (pushAll emptyB qs) := by
  intro ps
  induction ps with
  | nil =>
    intro bs
    cases hb : lookupB bs q <;> simp [hb, pushAll]
  | cons p ps ih =>
    intro bs
    rw [List.foldl_cons, ih (step bs p), lookupB_step]
    by_cases hk : periodKey p = q
    · rw [if_pos hk]
      cases hb : lookupB bs q <;>
        simp [List.filter_cons, hk, pushAll_cons]
    · rw [if_neg hk]
      cases hb : lookupB bs q <;>
        simp [List.filter_cons, hk]

/-- The map-update of one key leaves the key list unchanged. -/
theorem map_update_keys (p : Period) : ∀ bs : List (String × Buckets),
    ((bs.map (fun e => if e.1 = periodKey p then (e.1, stepPush e.2 p) else e)).map
        Prod.fst) = bs.map Prod.fst := by
  intro bs
  induction bs with
  | nil => rfl
  | cons e es ih =>
    simp only [List.map_cons, List.cons.injEq]
    exact ⟨by split <;> rfl, ih⟩

/-- The keys present after one iteration. -/
theorem keys_step (bs : List (String × Buckets)) (p : Period) (q : String) :
    q ∈ (step bs p).map Prod.fst ↔ q ∈ bs.map Prod.fst ∨ q = periodKey p := by
  unfold step
  cases hf : lookupB bs (periodKey p) with
  | some b0 =>
    rw [map_update_keys]
    constructor
    · exact fun h => Or.inl h
    · rintro (h | h)
      · exact h
      · exact h ▸ lookupB_mem_keys hf
  | none => simp [or_comm, eq_comm]

/-- The keys of the finished fold are exactly the period keys. -/
theorem keys_foldl (q : String) : ∀ (ps : List Period) (bs : List (String × Buckets)),
    q ∈ ((ps.foldl step bs).map Prod.fst) ↔
      q ∈ bs.map Prod.fst ∨ ∃ p ∈ ps, periodKey p = q := by
  intro ps
  induction ps with
  | nil => intro bs; simp
  | cons p ps ih =>
    intro bs
    rw [List.foldl_cons, ih (step bs p), keys_step]
    constructor
    · rintro ((h | h) | ⟨x, hx, hk⟩)
      · exact Or.inl h
      · exact Or.inr ⟨p, by simp, h.symm⟩
      · exact Or.inr ⟨x, by simp [hx], hk⟩
    · rintro (h | ⟨x, hx, hk⟩)
      · exact Or.inl (Or.inl h)
      · rcases List.mem_cons.mp hx with hx | hx
      
        · exact Or.inl (Or.inr (by rw [← hk, hx]))
        · exact Or.inr ⟨x, hx, hk⟩

/-- `resultFind` over the summarizing map is `lookupB` then `summarize`. -/
theorem resultFind_map_summarize (q : String) : ∀ bs : List (String × Buckets),
    resultFind (bs.map (fun e => (e.1, summarize e.2))) q =
      (lookupB bs q).map summarize := by
  intro bs
  induction bs with
  | nil => rfl
  | cons e es ih =>
    by_cases he : e.1 = q <;> simp [resultFind, lookupB, he, ih]

/-- Folding periods that all share one key over a one-entry map. -/
theorem foldl_step_single (k : String) : ∀ (ps : List Period) (b : Buckets),
    (∀ p ∈ ps, periodKey p = k) → ps.foldl step [(k, b)] = [(k, pushAll b ps)] := by
  intro ps
  induction ps with
  | nil => intro b _; simp [pushAll]
  | cons p ps ih =>
    intro b hall
    have hpk : periodKey p = k := hall p (by simp)
    have h1 : step [(k, b)] p = [(k, stepPush b p)] := by
      unfold step
      rw [hpk]
      simp [lookupB]
    rw [List.foldl_cons, h1, ih (stepPush b p) (fun q hq => hall q (by simp [hq])), pushAll_cons]

/-! ### Order lemmas for the aggregation -/

/-- A running minimum stays below a running maximum. -/
theorem foldl_min_le_foldl_max : ∀ (xs : List ℝ) (a b : ℝ), a ≤ b →
    xs.foldl min a ≤ xs.foldl max b := by
  intro xs
  induction xs with
  | nil => intro a b h; simpa using h
  | cons x xs ih =>
    intro a b h
    simp only [List.foldl_cons]
    exact ih _ _ (le_trans (min_le_left a x) (le_trans h (le_max_left b x)))

/-- `Math.round` is monotone. -/
theorem round_mono_real {x y : ℝ} (h : x ≤ y) : round x ≤ round y := by
  rw [round_eq, round_eq]
  exact Int.floor_mono (by linarith)

/-- Joint facts about the rounded max/min of one candidate list: both are
absent together, and when present the rounded min is below the rounded max. -/
theorem rounded_pair_props (L : List ℝ) :
    (((realsMax L).map round = none) ↔ ((realsMin L).map round = none)) ∧
    (∀ hi lo : ℤ, (realsMax L).map round = some hi →
      (realsMin L).map round = some lo → lo ≤ hi) := by
  cases L with
  | nil => simp [realsMax, realsMin]
  | cons x xs =>
    constructor
    · simp [realsMax, realsMin]
    · intro hi lo hhi hlo
      simp only [realsMax, realsMin, Option.map_some', Option.some.injEq] at hhi hlo
      rw [← hhi, ← hlo]
      exact round_mono_real (foldl_min_le_foldl_max xs x x le_rfl)

/-- Characters before an appended `'T'` are exactly the prefix kept by the
split, provided none of them is `'T'`. -/
theorem takeWhile_all_append (r : List Char) : ∀ l : List Char,
    (∀ c ∈ l, (c != 'T') = true) →
    (l ++ 'T' :: r).takeWhile (fun c => c != 'T') = l := by
  intro l
  induction l with
  | nil => simp [List.takeWhile_cons]
  | cons c cs ih =>
    intro h
    have hc := h c (by simp)
    have ih2 := ih (fun d hd => h d (by simp [hd]))
    simp [List.takeWhile_cons, hc, ih2]

/-! ### Claims about the daily bucketing -/

/-- C4: `getDailyRealFeelRange` buckets every period under the date
written in its own `startTime` string (the calendar date at the
timestamp's own UTC offset), never a UTC-converted date: the key of a
period starting `d ++ "T" ++ rest` is exactly `d`; the output's key set
is exactly the set of period keys; and the single §8 example period
(72°F, "5 mph", 50 % RH, start 2024-06-01T08:00:00-04:00) produces
exactly the map `{"2024-06-01": {high: 72, low: 72, realFeelHigh: 72,
realFeelLow: 72}}`. -/
theorem getDailyRealFeelRange_localKey :
    (∀ (d rest : String) (p : Period), (∀ c ∈ d.data, c ≠ 'T') → d ≠ ("") →
        p.startTime = some (d ++ ("T") ++ rest) → periodKey p = d) ∧
    (∀ (ps : List Period) (k : String),
        (∃ e ∈ getDailyRealFeelRange ps, e.1 = k) ↔ ∃ p ∈ ps, periodKey p = k) ∧
    getDailyRealFeelRange [examplePeriod72] =
      [(("2024-06-01"), ⟨some 72, some 72, some 72, some 72⟩)] := by
  refine ⟨?_, ?_, ?_⟩
  · intro d rest p hd hne hst
    unfold periodKey
    rw [hst]
    show dateKeyOfStartTime (d ++ ("T") ++ rest) = d
    unfold dateKeyOfStartTime beforeT
    have hdata : (d ++ ("T") ++ rest).data = d.data ++ 'T' :: rest.data := by
      rw [String.data_append, String.data_append]
      simp
    rw [hdata, takeWhile_all_append rest.data d.data (fun c hc => by simp [hd c hc])]
    have hmk : String.mk d.data = d := rfl
    rw [hmk, if_neg hne]
  · intro ps k
    unfold getDailyRealFeelRange
    have hmem : (∃ e ∈ (ps.foldl step []).map (fun e => (e.1, summarize e.2)), e.1 = k) ↔
        k ∈ ((ps.foldl step []).map Prod.fst) := by
      constructor
      · rintro ⟨e, he, hk⟩
        rcases List.mem_map.mp he with ⟨b, hb, rfl⟩
        exact hk ▸ List.mem_map.mpr ⟨b, hb, rfl⟩
      · intro hk
        rcases List.mem_map.mp hk with ⟨b, hb, rfl⟩
        exact ⟨(b.1, summarize b.2), List.mem_map.mpr ⟨b, hb, rfl⟩, rfl⟩
    rw [hmem, keys_foldl]
    simp
  · have hk : periodKey examplePeriod72 = ("2024-06-01") := by decide
    have hrf : periodRealFeel examplePeriod72 = some 72 := by
      unfold periodRealFeel
      rw [show periodApparentF examplePeriod72 = none from rfl]
      rw [show examplePeriod72.temperature = some (72 : ℝ) from rfl]
      simp only [Option.map_some', Option.some.injEq]
      norm_num [calculateRealFeel]
    unfold getDailyRealFeelRange
    rw [List.foldl_cons, List.foldl_nil]
    have hstep : step [] examplePeriod72 =
        [(("2024-06-01"), stepPush emptyB examplePeriod72)] := by
      show [] ++ [(periodKey examplePeriod72, stepPush emptyB examplePeriod72)] = _
      rw [hk, List.nil_append]
    rw [hstep]
    have hpush : stepPush emptyB examplePeriod72 = ⟨[(72 : ℝ)], [(72 : ℝ)], [(72 : ℝ)]⟩ := by
      unfold stepPush emptyB
      rw [hrf, show examplePeriod72.temperature = some (72 : ℝ) from rfl]
      rfl
    rw [hpush]
    show [(("2024-06-01"), summarize ⟨[(72 : ℝ)], [72], [72]⟩)] = _
    have hsum : summarize ⟨[(72 : ℝ)], [72], [72]⟩ = ⟨some 72, some 72, some 72, some 72⟩ := by
      simp only [summarize, realsMax, realsMin, List.foldl_nil, Option.map_some']
      norm_num [round_eq]
    rw [hsum]

/-- C4 witness: the general key law at the example period. -/
theorem getDailyRealFeelRange_localKey_witness :
    periodKey examplePeriod72 = ("2024-06-01") :=
  getDailyRealFeelRange_localKey.1 ("2024-06-01") ("08:00:00-04:00") examplePeriod72
    (by decide) (by decide) (by decide)

/-- C5: for a non-empty period list that shares one calendar-day key, the
output is the single record whose `high`/`low` are the rounded max/min of
the raw temperatures and whose `realFeelHigh`/`realFeelLow` are the
rounded max/min of the separately accumulated RealFeel series; rounding
is applied once, after aggregating the unrounded values. -/
theorem getDailyRealFeelRange_singleDay (ps : List Period) (k : String)
    (hne : ps ≠ []) (hk : ∀ p ∈ ps, periodKey p = k) :
    getDailyRealFeelRange ps =
      [(k, { realFeelHigh := (realsMax (ps.filterMap periodRealFeel)).map round
             realFeelLow := (realsMin (ps.filterMap periodRealFeel)).map round
             high := (realsMax (ps.filterMap Period.temperature)).map round
             low := (realsMin (ps.filterMap Period.temperature)).map round })] := by
  cases ps with
  | nil => exact absurd rfl hne
  | cons p ps2 =>
    unfold getDailyRealFeelRange
    have hpk : periodKey p = k := hk p (by simp)
    have h1 : step [] p = [(k, stepPush emptyB p)] := by
      show [] ++ [(periodKey p, stepPush emptyB p)] = _
      rw [hpk, List.nil_append]
    rw [List.foldl_cons, h1,
      foldl_step_single k ps2 (stepPush emptyB p) (fun q hq => hk q (by simp [hq])),
      ← pushAll_cons, pushAll_fields]
    simp [summarize, emptyB]

/-- C5 witness: two periods of day 2024-06-01 with temperatures 70 and 75. -/
theorem getDailyRealFeelRange_singleDay_witness :
    getDailyRealFeelRange [periodA70, periodB75] =
      [(("2024-06-01"),
        { realFeelHigh := (realsMax ([periodA70, periodB75].filterMap periodRealFeel)).map round
          realFeelLow := (realsMin ([periodA70, periodB75].filterMap periodRealFeel)).map round
          high := (realsMax ([periodA70, periodB75].filterMap Period.temperature)).map round
          low := (realsMin ([periodA70, periodB75].filterMap Period.temperature)).map round })] :=
  getDailyRealFeelRange_singleDay [periodA70, periodB75] ("2024-06-01")
    (by simp) (by decide)

/-- C9: `getDailyRealFeelRange` degrades gracefully (the embedding is a
total function, so no input raises): the empty list yields the empty map;
a period with non-finite temperature is excluded from its day's high/low
candidate set while every other period — of any day — still contributes
(each field of any produced record aggregates exactly the present values
of the periods bucketed under that key); and a day whose candidate sets
are empty carries `null` fields rather than an error or zero. -/
theorem getDailyRealFeelRange_robust :
    getDailyRealFeelRange [] = [] ∧
    (∀ (ps : List Period) (k : String) (r : DailyRange),
        resultFind (getDailyRealFeelRange ps) k = some r →
        r.high = (realsMax ((ps.filter (fun p => periodKey p = k)).filterMap
          Period.temperature)).map round ∧
        r.low = (realsMin ((ps.filter (fun p => periodKey p = k)).filterMap
          Period.temperature)).map round ∧
        r.realFeelHigh = (realsMax ((ps.filter (fun p => periodKey p = k)).filterMap
          periodRealFeel)).map round ∧
        r.realFeelLow = (realsMin ((ps.filter (fun p => periodKey p = k)).filterMap
          periodRealFeel)).map round) ∧
    getDailyRealFeelRange [badPeriod] = [(("2024-06-02"), ⟨none, none, none, none⟩)] := by
  refine ⟨rfl, ?_, ?_⟩
  · intro ps k r hr
    unfold getDailyRealFeelRange at hr
    rw [resultFind_map_summarize, lookupB_foldl] at hr
    simp only [lookupB] at hr
    rcases hqs : ps.filter (fun p => periodKey p = k) with _ | ⟨q, qs⟩ <;> rw [hqs] at hr
    · simp at hr
    · simp only [Option.map_some', Option.some.injEq] at hr
      subst hr
      rw [← hqs, pushAll_fields]
      simp [summarize, emptyB]
  · have hk : periodKey badPeriod = ("2024-06-02") := by decide
    unfold getDailyRealFeelRange
    rw [List.foldl_cons, List.foldl_nil]
    have hstep : step [] badPeriod = [(("2024-06-02"), stepPush emptyB badPeriod)] := by
      show [] ++ [(periodKey badPeriod, stepPush emptyB badPeriod)] = _
      rw [hk, List.nil_append]
    rw [hstep]
    have hpush : stepPush emptyB badPeriod = ⟨[], [], []⟩ := by
      unfold stepPush emptyB
      rw [show periodRealFeel badPeriod = none from rfl,
        show badPeriod.temperature = none from rfl]
      rfl
    rw [hpush]
    rfl

/-- C9 witness: the aggregation law instantiated at the bad-period input. -/
theorem getDailyRealFeelRange_robust_witness :
    (⟨none, none, none, none⟩ : DailyRange).high =
      (realsMax (([badPeriod].filter (fun p => periodKey p = ("2024-06-02"))).filterMap
        Period.temperature)).map round ∧
    (⟨none, none, none, none⟩ : DailyRange).low =
      (realsMin (([badPeriod].filter (fun p => periodKey p = ("2024-06-02"))).filterMap
        Period.temperature)).map round ∧
    (⟨none, none, none, none⟩ : DailyRange).realFeelHigh =
      (realsMax (([badPeriod].filter (fun p => periodKey p = ("2024-06-02"))).filterMap
        periodRealFeel)).map round ∧
    (⟨none, none, none, none⟩ : DailyRange).realFeelLow =
      (realsMin (([badPeriod].filter (fun p => periodKey p = ("2024-06-02"))).filterMap
        periodRealFeel)).map round :=
  getDailyRealFeelRange_robust.2.1 [badPeriod] ("2024-06-02") ⟨none, none, none, none⟩
    (by rw [getDailyRealFeelRange_robust.2.2]; rfl)

/-- C10: in every produced record, `high` and `low` are null together and
ordered (`low ≤ high`) when present, likewise `realFeelHigh`/`realFeelLow`;
and the two pairs are independent: a period with a provided finite
apparent temperature but non-finite raw temperature yields a day with
non-null RealFeel fields and null `high`/`low`. -/
theorem getDailyRealFeelRange_nullity :
    (∀ (ps : List Period) (k : String) (r : DailyRange),
        resultFind (getDailyRealFeelRange ps) k = some r →
        ((r.high = none ↔ r.low = none) ∧
         (r.realFeelHigh = none ↔ r.realFeelLow = none) ∧
         (∀ hi lo : ℤ, r.high = some hi → r.low = some lo → lo ≤ hi) ∧
         (∀ hi lo : ℤ, r.realFeelHigh = some hi → r.realFeelLow = some lo → lo ≤ hi))) ∧
    getDailyRealFeelRange [apparentOnlyPeriod] =
      [(("2024-06-03"), ⟨some 75, some 75, none, none⟩)] := by
  refine ⟨?_, ?_⟩
  · intro ps k r hr
    unfold getDailyRealFeelRange at hr
    rw [resultFind_map_summarize, lookupB_foldl] at hr
    simp only [lookupB] at hr
    rcases hqs : ps.filter (fun p => periodKey p = k) with _ | ⟨q, qs⟩ <;> rw [hqs] at hr
    · simp at hr
    · simp only [Option.map_some', Option.some.injEq] at hr
      subst hr
      rw [pushAll_fields]
      simp only [summarize, emptyB, List.nil_append]
      exact ⟨(rounded_pair_props _).1, (rounded_pair_props _).1,
        (rounded_pair_props _).2, (rounded_pair_props _).2⟩
  · have hk : periodKey apparentOnlyPeriod = ("2024-06-03") := by decide
    unfold getDailyRealFeelRange
    rw [List.foldl_cons, List.foldl_nil]
    have hstep : step [] apparentOnlyPeriod =
        [(("2024-06-03"), stepPush emptyB apparentOnlyPeriod)] := by
      show [] ++ [(periodKey apparentOnlyPeriod, stepPush emptyB apparentOnlyPeriod)] = _
      rw [hk, List.nil_append]
    rw [hstep]
    have hpush : stepPush emptyB apparentOnlyPeriod = ⟨[(75 : ℝ)], [], []⟩ := by
      unfold stepPush emptyB
      rw [show periodRealFeel apparentOnlyPeriod = some (75 : ℝ) from rfl,
        show apparentOnlyPeriod.temperature = none from rfl]
      rfl
    rw [hpush]
    show [(("2024-06-03"), summarize ⟨[(75 : ℝ)], [], []⟩)] = _
    have hsum : summarize ⟨[(75 : ℝ)], [], []⟩ = ⟨some 75, some 75, none, none⟩ := by
      simp only [summarize, realsMax, realsMin, List.foldl_nil, Option.map_some']
      norm_num [round_eq]
    rw [hsum]

/-- C10 witness: the invariants instantiated at the apparent-only input. -/
theorem getDailyRealFeelRange_nullity_witness :
    (((⟨some 75, some 75, none, none⟩ : DailyRange).high = none ↔
        (⟨some 75, some 75, none, none⟩ : DailyRange).low = none) ∧
     ((⟨some 75, some 75, none, none⟩ : DailyRange).realFeelHigh = none ↔
        (⟨some 75, some 75, none, none⟩ : DailyRange).realFeelLow = none) ∧
     (∀ hi lo : ℤ, (⟨some 75, some 75, none, none⟩ : DailyRange).high = some hi →
        (⟨some 75, some 75, none, none⟩ : DailyRange).low = some lo → lo ≤ hi) ∧
     (∀ hi lo : ℤ, (⟨some 75, some 75, none, none⟩ : DailyRange).realFeelHigh = some hi →
        (⟨some 75, some 75, none, none⟩ : DailyRange).realFeelLow = some lo → lo ≤ hi)) :=
  getDailyRealFeelRange_nullity.1 [apparentOnlyPeriod] ("2024-06-03")
    ⟨some 75, some 75, none, none⟩ (by rw [getDailyRealFeelRange_nullity.2]; rfl)

/-! ### Claims about the alert alignment -/

/-- C6: for every alert with properties and every parseable day key,
`alertAppliesOnDate` resolves the start as the first present of
`effective`/`onset`/`sent` (defaulting to the day's local midnight) and
the end as the first present of `expires`/`ends` (defaulting to the day's
local 23:59:59), and returns true iff the closed intervals overlap
(`dayStart ≤ alertEnd ∧ alertStart ≤ dayEnd`); in particular (environment
zone UTC-4) the §8 alert applies on 2024-06-01 and 2024-06-02 but not on
2024-06-03. -/
theorem alertAppliesOnDate_overlap :
    (∀ (tz : ℤ) (p : AlertProps) (c : ℤ × ℤ × ℤ) (k : String),
      parseDateKey k = some c →
      (alertAppliesOnDate tz ⟨some p⟩ k = true ↔
        (epochOfLocal tz c.1 c.2.1 c.2.2 0 0 0 ≤
            (((p.expires <|> p.ends).map Timestamp.toEpoch).getD
              (epochOfLocal tz c.1 c.2.1 c.2.2 23 59 59)) ∧
          (((p.effective <|> p.onset <|> p.sent).map Timestamp.toEpoch).getD
              (epochOfLocal tz c.1 c.2.1 c.2.2 0 0 0)) ≤
            epochOfLocal tz c.1 c.2.1 c.2.2 23 59 59))) ∧
    (alertAppliesOnDate (-240) exampleAlert ("2024-06-01") = true ∧
     alertAppliesOnDate (-240) exampleAlert ("2024-06-02") = true ∧
     alertAppliesOnDate (-240) exampleAlert ("2024-06-03") = false) := by
  constructor
  · intro tz p c k hk
    unfold alertAppliesOnDate
    rw [hk]
    cases hef : p.effective <|> p.onset <|> p.sent <;>
      cases hex : p.expires <|> p.ends <;>
        simp [hef, hex, decide_eq_true_iff]
  · exact ⟨by decide, by decide, by decide⟩

/-- C6 witness: the overlap law at the §8 alert on 2024-06-01, UTC-4. -/
theorem alertAppliesOnDate_overlap_witness :
    alertAppliesOnDate (-240) exampleAlert ("2024-06-01") = true ↔
      (epochOfLocal (-240) 2024 6 1 0 0 0 ≤
          (((exampleAlertProps.expires <|> exampleAlertProps.ends).map
            Timestamp.toEpoch).getD (epochOfLocal (-240) 2024 6 1 23 59 59)) ∧
        (((exampleAlertProps.effective <|> exampleAlertProps.onset <|>
            exampleAlertProps.sent).map Timestamp.toEpoch).getD
          (epochOfLocal (-240) 2024 6 1 0 0 0)) ≤
          epochOfLocal (-240) 2024 6 1 23 59 59) :=
  alertAppliesOnDate_overlap.1 (-240) exampleAlertProps (2024, 6, 1) ("2024-06-01")
    (by decide)

/-- C8: the cell-alert choice of `renderWeatherTable` is the first alert,
in list order, whose validity window applies on the cell's day, and no
alert is selected when none applies. -/
theorem selectAlertForCell_firstMatch (tz : ℤ) (alerts : List Alert) (k : String) :
    (selectAlertForCell tz alerts k = none ↔
      ∀ a ∈ alerts, alertAppliesOnDate tz a k = false) ∧
    (∀ a : Alert, selectAlertForCell tz alerts k = some a →
      alertAppliesOnDate tz a k = true ∧
      ∃ l1 l2 : List Alert, alerts = l1 ++ a :: l2 ∧
        ∀ b ∈ l1, alertAppliesOnDate tz b k = false) := by
  constructor
  · rw [selectAlertForCell, List.find?_eq_none]
    simp
  · intro a
    induction alerts with
    | nil => intro h; simp [selectAlertForCell] at h
    | cons b bs ih =>
      intro h
      rw [selectAlertForCell] at h
      cases hb : alertAppliesOnDate tz b k with
      | true =>
        have hfind := @List.find?_cons_of_pos Alert (fun x => alertAppliesOnDate tz x k) b bs hb
        rw [hfind] at h
        have hab : b = a := Option.some.inj h
        subst hab
        exact ⟨hb, [], bs, rfl, by simp⟩
      | false =>
        have hfind := @List.find?_cons_of_neg Alert (fun x => alertAppliesOnDate tz x k) b bs
          (by simp [hb])
        rw [hfind] at h
        rcases ih h with ⟨happ, l1, l2, heq, hall⟩
        refine ⟨happ, b :: l1, l2, by rw [List.cons_append, heq], ?_⟩
        intro cAlert hc
        rcases List.mem_cons.mp hc with rfl | hc
        · exact hb
        · exact hall cAlert hc

/-- C8 witness: a one-element alert list on a day the alert covers. -/
theorem selectAlertForCell_firstMatch_witness :
    alertAppliesOnDate (-240) cellAlert ("2024-06-05") = true ∧
    ∃ l1 l2 : List Alert, [cellAlert] = l1 ++ cellAlert :: l2 ∧
      ∀ b ∈ l1, alertAppliesOnDate (-240) b ("2024-06-05") = false :=
  (selectAlertForCell_firstMatch (-240) [cellAlert] ("2024-06-05")).2 cellAlert (by decide)

/-! ### Order and membership lemmas for `deriveDateKeys` -/

/-- The code-unit order is total. -/
theorem charListLe_total : ∀ as bs : List Char,
    charListLe as bs = true ∨ charListLe bs as = true := by
  intro as
  induction as with
  | nil => intro bs; left; rfl
  | cons a as ih =>
    intro bs
    cases bs with
    | nil => right; rfl
    | cons b bs2 =>
      by_cases hab : a < b
      · left; simp [charListLe, hab]
      · by_cases hba : b < a
        · right; simp [charListLe, hba]
        · have hEq : a = b := le_antisymm (not_lt.mp hba) (not_lt.mp hab)
          subst hEq
          rcases ih bs2 with h | h
          · left; simp [charListLe, h]
          · right; simp [charListLe, h]

/-- The code-unit order is transitive. -/
theorem charListLe_trans : ∀ as bs cs : List Char,
    charListLe as bs = true → charListLe bs cs = true → charListLe as cs = true := by
  intro as
  induction as with
  | nil => intro bs cs _ _; rfl
  | cons a as ih =>
    intro bs cs h1 h2
    cases bs with
    | nil => simp [charListLe] at h1
    | cons b bs2 =>
      cases cs with
      | nil => simp [charListLe] at h2
      | cons c cs2 =>
        by_cases hab : a < b
        · by_cases hbc : b < c
          · simp [charListLe, lt_trans hab hbc]
          · by_cases hbc2 : b = c
            · subst hbc2; simp [charListLe, hab]
            · simp [charListLe, hbc, hbc2] at h2
        · by_cases hab2 : a = b
          · subst hab2
            simp only [charListLe, lt_irrefl, if_false, if_pos rfl] at h1
            by_cases hbc : a < c
            · simp [charListLe, hbc]
            · by_cases hbc2 : a = c
              · subst hbc2
                simp only [charListLe, lt_irrefl, if_false, if_pos rfl] at h2 ⊢
                exact ih bs2 cs2 h1 h2
              · simp [charListLe, hbc, hbc2] at h2
          · simp [charListLe, hab, hab2] at h1

/-- Membership through sorted insertion. -/
theorem mem_insertSorted (x a : String) : ∀ l : List String,
    a ∈ insertSorted x l ↔ a = x ∨ a ∈ l := by
  intro l
  induction l with
  | nil => simp [insertSorted]
  | cons y ys ih =>
    by_cases h : charListLe x.data y.data = true
    · simp [insertSorted, h]
    · simp only [insertSorted, if_neg h, List.mem_cons, ih]
      tauto

/-- Sorted insertion preserves sortedness. -/
theorem pairwise_insertSorted (x : String) : ∀ l : List String,
    l.Pairwise (fun a b => charListLe a.data b.data = true) →
    (insertSorted x l).Pairwise (fun a b => charListLe a.data b.data = true) := by
  intro l
  induction l with
  | nil => intro _; simp [insertSorted]
  | cons y ys ih =>
    intro hp
    rcases List.pairwise_cons.mp hp with ⟨hy, hys⟩
    by_cases h : charListLe x.data y.data = true
    · simp only [insertSorted, if_pos h]
      refine List.pairwise_cons.mpr ⟨?_, hp⟩
      intro b hb
      rcases List.mem_cons.mp hb with rfl | hb
      · exact h
      · exact charListLe_trans x.data y.data b.data h (hy b hb)
    · simp only [insertSorted, if_neg h]
      refine List.pairwise_cons.mpr ⟨?_, ih hys⟩
      intro b hb
      rcases (mem_insertSorted x b ys).mp hb with rfl | hb
      · rcases charListLe_total y.data b.data with hyx | hxy
        · exact hyx
        · exact absurd hxy h
      · exact hy b hb

/-- The sort is a reordering: same members. -/
theorem mem_sortKeys (a : String) : ∀ l : List String, a ∈ sortKeys l ↔ a ∈ l := by
  intro l
  induction l with
  | nil => simp [sortKeys]
  | cons x xs ih =>
    show a ∈ insertSorted x (sortKeys xs) ↔ _
    rw [mem_insertSorted]
    simp [ih]

/-- The sort output is sorted. -/
theorem pairwise_sortKeys : ∀ l : List String,
    (sortKeys l).Pairwise (fun a b => charListLe a.data b.data = true) := by
  intro l
  induction l with
  | nil => simp [sortKeys]
  | cons x xs ih => exact pairwise_insertSorted x (sortKeys xs) ih

/-- Membership in the set accumulator. -/
theorem mem_addKey (acc : List String) (k a : String) :
    a ∈ addKey acc k ↔ a ∈ acc ∨ k = a := by
  unfold addKey
  by_cases hmem : k ∈ acc
  · rw [if_pos hmem]
    constructor
    · exact Or.inl
    · rintro (h | h)
      · exact h
      · exact h ▸ hmem
  · rw [if_neg hmem]
    simp [List.mem_append, eq_comm]

/-- Membership after feeding a whole list into the set accumulator. -/
theorem mem_foldl_addKey {β : Type} (g : β → String) (a : String) :
    ∀ (l : List β) (acc : List String),
    (a ∈ l.foldl (fun ac e => addKey ac (g e)) acc) ↔ a ∈ acc ∨ ∃ e ∈ l, g e = a := by
  intro l
  induction l with
  | nil => intro acc; simp
  | cons e l ih =>
    intro acc
    rw [List.foldl_cons, ih, mem_addKey]
    rw [List.exists_mem_cons_iff]
    tauto

/-- Membership after the summary-keys loop of `deriveDateKeys`. -/
theorem mem_keysLoop1 (a : String) : ∀ (locs : List (Option UISlot)) (acc : List String),
    (a ∈ locs.foldl (fun acc oloc =>
        (normalizeDailyMap (oloc.bind UISlot.dailyData)).foldl
          (fun x e => addKey x e.1) acc) acc) ↔
      a ∈ acc ∨ ∃ oloc ∈ locs, ∃ e ∈ normalizeDailyMap (oloc.bind UISlot.dailyData), e.1 = a := by
  intro locs
  induction locs with
  | nil => intro acc; simp
  | cons oloc locs ih =>
    intro acc
    rw [List.foldl_cons, ih, mem_foldl_addKey Prod.fst, List.exists_mem_cons_iff]
    exact or_assoc

/-- Membership after the period-keys loop of `deriveDateKeys`. -/
theorem mem_keysLoop2 (tz now : ℤ) (a : String) :
    ∀ (locs : List (Option UISlot)) (acc : List String),
    (a ∈ locs.foldl (fun acc oloc =>
        match oloc with
        | none => acc
        | some loc =>
          match loc.periods with
          | none => acc
          | some ps =>
            ps.foldl (fun x p => addKey x (formatDateKey tz (periodStartEpoch now p))) acc)
      acc) ↔
      a ∈ acc ∨ ∃ oloc ∈ locs, ∃ loc, oloc = some loc ∧ ∃ ps, loc.periods = some ps ∧
        ∃ p ∈ ps, formatDateKey tz (periodStartEpoch now p) = a := by
  intro locs
  induction locs with
  | nil => intro acc; simp
  | cons oloc locs ih =>
    intro acc
    rw [List.foldl_cons, ih, List.exists_mem_cons_iff]
    cases oloc with
    | none => simp
    | some loc =>
      cases hps : loc.periods with
      | none => simp [hps]
      | some ps =>
        simp only [hps]
        simp only [mem_foldl_addKey (fun p => formatDateKey tz (periodStartEpoch now p))]
        rw [or_assoc]
        simp [hps]

/-- C7 (amended): `deriveDateKeys` returns, sorted ascending, every key at
or after today's local key that occurs either in some slot's daily-summary
map or as the local date key of some slot's raw period — the period-derived
keys are contributed by every slot that has a period list, not only as a
fallback for slots lacking a summary map; the §8 example (summary key sets
{2024-05-30, 2024-06-01}, {2024-06-01, 2024-06-02}, {} and today
2024-06-01) yields exactly ["2024-06-01", "2024-06-02"]. -/
theorem deriveDateKeys_union (tz now : ℤ) (locs : List (Option UISlot)) :
    (∀ a : String, a ∈ deriveDateKeys tz now locs ↔
      (charListLe (formatDateKey tz now).data a.data = true ∧
        ((∃ oloc ∈ locs, ∃ e ∈ normalizeDailyMap (oloc.bind UISlot.dailyData), e.1 = a) ∨
         (∃ oloc ∈ locs, ∃ loc, oloc = some loc ∧ ∃ ps, loc.periods = some ps ∧
            ∃ p ∈ ps, formatDateKey tz (periodStartEpoch now p) = a)))) ∧
    (deriveDateKeys tz now locs).Pairwise (fun a b => charListLe a.data b.data = true) ∧
    deriveDateKeys 0 nowJune1 [some slotA, some slotB, some slotC] =
      [("2024-06-01"), ("2024-06-02")] := by
  refine ⟨?_, pairwise_sortKeys _, by decide⟩
  intro a
  show a ∈ sortKeys ((locs.foldl (fun acc oloc =>
        match oloc with
        | none => acc
        | some loc =>
          match loc.periods with
          | none => acc
          | some ps =>
            ps.foldl (fun x p => addKey x (formatDateKey tz (periodStartEpoch now p))) acc)
      (locs.foldl (fun acc oloc =>
        (normalizeDailyMap (oloc.bind UISlot.dailyData)).foldl
          (fun x e => addKey x e.1) acc) [])).filter
      (fun k => charListLe (formatDateKey tz now).data k.data)) ↔ _
  rw [mem_sortKeys, List.mem_filter, mem_keysLoop2 tz now a locs, mem_keysLoop1 a locs]
  constructor
  · rintro ⟨hmem, hpred⟩
    refine ⟨hpred, ?_⟩
    rcases hmem with (hfalse | hD) | hP
    · exact absurd hfalse (List.not_mem_nil a)
    · exact Or.inl hD
    · exact Or.inr hP
  · rintro ⟨hpred, hDP⟩
    refine ⟨?_, hpred⟩
    rcases hDP with hD | hP
    · exact Or.inl (Or.inr hD)
    · exact Or.inr hP

/-- C7 witness: the membership law at the day 2024-06-02 of the example. -/
theorem deriveDateKeys_union_witness :
    ("2024-06-02") ∈ deriveDateKeys 0 nowJune1 [some slotA, some slotB, some slotC] ↔
      (charListLe (formatDateKey 0 nowJune1).data ("2024-06-02").data = true ∧
        ((∃ oloc ∈ [some slotA, some slotB, some slotC],
            ∃ e ∈ normalizeDailyMap (oloc.bind UISlot.dailyData), e.1 = ("2024-06-02")) ∨
         (∃ oloc ∈ [some slotA, some slotB, some slotC], ∃ loc, oloc = some loc ∧
            ∃ ps, loc.periods = some ps ∧
              ∃ p ∈ ps, formatDateKey 0 (periodStartEpoch nowJune1 p) = ("2024-06-02")))) :=
  (deriveDateKeys_union 0 nowJune1 [some slotA, some slotB, some slotC]).1 ("2024-06-02")

/-- C7 counterexample to the claim as stated: `slotBoth` HAS a
daily-summary map (key 2024-06-05), yet the key derived from its raw
period (2024-06-07) is also returned — the period-derived keys are not
restricted to slots lacking a summary map, so the result is not the
summary-key union alone. -/
theorem deriveDateKeys_fallback_counterexample :
    deriveDateKeys 0 nowJune1 [some slotBoth] = [("2024-06-05"), ("2024-06-07")] ∧
    deriveDateKeys 0 nowJune1 [some slotBoth] ≠ [("2024-06-05")] := by
  refine ⟨by decide, by decide⟩
